import Mathlib

/-!
Shallow embedding of `tower-rusoto` (`src/lib.rs`): an adapter bridging a
generic `tower_http` HTTP service to rusoto's `DispatchSignedRequest`
contract.  We model the three pieces of the source:

* `RusotoBody.poll_buf` — the outbound body adapter over the
  `SignedRequestPayload` tagged union (`src/lib.rs:125-142`);
* `HttpClient.dispatch` — the request translator (timeout assertion,
  method mapping, header translation, URI assembly) and the response
  translator (`src/lib.rs:45-118`);
* `BodyStream.poll` — the inbound body stream adapter
  (`src/lib.rs:163-172`).

Asynchronous poll-based streams are embedded as explicit state passing: a
stream source is scripted as a list of observable signals (not-ready /
chunk / error), with end-of-stream reached when the script is exhausted.
The futures `Stream` contract (end-of-stream is terminal) is encoded by
the script model: an empty script yields end on every poll.
-/

namespace TowerRusoto

/-- Byte strings are lists of byte values. -/
abbrev Bytes := List Nat

/-- One observable signal from an externally driven asynchronous chunk
source (a `futures::Stream` of byte chunks, e.g. rusoto's `ByteStream`,
or a `tokio_buf::BufStream`): the source is not ready, is ready with a
chunk, or fails with an error.  End-of-stream is represented by the
script running out. -/
inductive StreamSignal where
  | notReady : StreamSignal
  | chunk (b : Bytes) : StreamSignal
  | srcError (msg : String) : StreamSignal
deriving DecidableEq, Repr

/-- The outcome of one call to a `poll_buf`/`poll`-style pull, i.e. the
Rust type `Poll<Option<Item>, Error>`:
`ready b` is `Ok(Async::Ready(Some(b)))`, `eof` is
`Ok(Async::Ready(None))`, `notReady` is `Ok(Async::NotReady)`, and
`err m` is `Err(e)` with message `m`. -/
inductive PollOutcome where
  | ready (b : Bytes) : PollOutcome
  | eof : PollOutcome
  | notReady : PollOutcome
  | err (msg : String) : PollOutcome
deriving DecidableEq, Repr

/-- rusoto's `SignedRequestPayload`: a fully buffered byte block or a
handle to an asynchronous chunk stream (scripted, see `StreamSignal`). -/
inductive SignedRequestPayload where
  | Buffer (buf : Bytes) : SignedRequestPayload
  | Stream (script : List StreamSignal) : SignedRequestPayload
deriving DecidableEq, Repr

/-- `RusotoBody` from the source: `inner: Option<SignedRequestPayload>`. -/
structure RusotoBody where
  inner : Option SignedRequestPayload
deriving DecidableEq, Repr

/-- `impl From<Option<SignedRequestPayload>> for RusotoBody`
(`src/lib.rs:149-153`). -/
def RusotoBody.from (inner : Option SignedRequestPayload) : RusotoBody :=
  ⟨inner⟩

/-- `RusotoBody::poll_buf` (`src/lib.rs:125-142`), as a state-passing
function returning the poll outcome and the successor state.

* `Some(Buffer(buf))`: if `buf` is non-empty, `buf.split_off(0)` moves the
  entire contents out (leaving the buffer empty in place) and the chunk is
  yielded wrapped in a cursor; if empty, `Ready(None)`.
* `Some(Stream(stream))`: `stream.poll()?` is forwarded one-for-one —
  ready-with-chunk becomes ready-with-chunk (wrapped in an owned cursor),
  ready-with-end becomes `Ready(None)`, not-ready becomes `NotReady`, and
  a source error propagates via `?`.
* `None`: `Ready(None)`. -/
def RusotoBody.poll_buf : RusotoBody → PollOutcome × RusotoBody
  | ⟨some (.Buffer buf)⟩ =>
      if buf ≠ [] then
        (.ready buf, ⟨some (.Buffer [])⟩)
      else
        (.eof, ⟨some (.Buffer buf)⟩)
  | ⟨some (.Stream script)⟩ =>
      match script with
      | [] => (.eof, ⟨some (.Stream [])⟩)
      | .notReady :: rest => (.notReady, ⟨some (.Stream rest)⟩)
      | .chunk b :: rest => (.ready b, ⟨some (.Stream rest)⟩)
      | .srcError m :: rest => (.err m, ⟨some (.Stream rest)⟩)
  | ⟨none⟩ => (.eof, ⟨none⟩)

/-- Run `n` successive `poll_buf` pulls from state `s`, collecting the
observed outcomes in order. -/
def RusotoBody.runPolls (s : RusotoBody) : Nat → List PollOutcome
  | 0 => []
  | n + 1 =>
      let r := s.poll_buf
      r.1 :: RusotoBody.runPolls r.2 n

/-- The outcome a single source signal is forwarded as by
`RusotoBody::poll_buf` in the `Stream` arm (`src/lib.rs:135-139`). -/
def signalOutcome : StreamSignal → PollOutcome
  | .notReady => .notReady
  | .chunk b => .ready b
  | .srcError m => .err m

/-! ## Request translation (`HttpClient::dispatch`, `src/lib.rs:45-97`) -/

/-- `http::Method`, restricted to the verbs the source can produce. -/
inductive Method where
  | POST : Method
  | PUT : Method
  | DELETE : Method
  | GET : Method
  | HEAD : Method
deriving DecidableEq, Repr

/-- The token each `http::Method` value renders as. -/
def Method.token : Method → String
  | .POST => "POST"
  | .PUT => "PUT"
  | .DELETE => "DELETE"
  | .GET => "GET"
  | .HEAD => "HEAD"

/-- The method match in `dispatch` (`src/lib.rs:48-55`): the five listed
tokens map to the corresponding `http::Method`; any other token hits the
`unimplemented!()` arm, modelled as `none`. -/
def mapMethod (s : String) : Option Method :=
  match s with
  | "POST" => some .POST
  | "PUT" => some .PUT
  | "DELETE" => some .DELETE
  | "GET" => some .GET
  | "HEAD" => some .HEAD
  | _ => none

/-- Whether a character may appear in an HTTP header name, per the `http`
crate's `HeaderName` token table (RFC 7230 tchar). -/
def isHeaderNameChar (c : Char) : Bool :=
  c.isAlphanum ||
    c ∈ ['!', '#', '$', '%', '&', '\x27', '*', '+', '-', '.', '^', '_',
         '\x60', '|', '~']

/-- `str::parse::<HeaderName>` from the `http` crate (external
collaborator of `src/lib.rs:59`): succeeds on a non-empty token-character
name, normalising it to lowercase; otherwise fails (the source's
`unimplemented!()` arm). -/
def parseHeaderName (s : String) : Option String :=
  if s ≠ "" && s.toList.all isHeaderNameChar then
    some (s.toLower)
  else
    none

/-- Whether a byte may appear in an HTTP header value, per the `http`
crate's `HeaderValue` check: visible ASCII, obs-text, or horizontal tab. -/
def isHeaderValueByte (b : Nat) : Bool :=
  (32 ≤ b && b ≠ 127 && b < 256) || b = 9

/-- `HeaderValue::from_bytes` from the `http` crate (external collaborator
of `src/lib.rs:64`): succeeds iff every byte is a legal header-value
byte, keeping the bytes unchanged; otherwise fails (the source's
`unimplemented!()` arm). -/
def headerValueFromBytes (v : Bytes) : Option Bytes :=
  if v.all isHeaderValueByte then some v else none

/-- An `http::HeaderMap` observed as its ordered multiset of entries:
one `(name, value)` pair per stored value.  `append` adds a pair at the
end, never replacing existing pairs for the same name. -/
abbrev HeaderEntries := List (String × Bytes)

/-- The header-translation loop of `dispatch` (`src/lib.rs:57-70`): for
every `(name, values)` pair of the descriptor's header multimap, parse
the name, then parse each raw value and `append` it under that name;
a failed parse hits `unimplemented!()`, modelled as `none`. -/
def translateHeaders (hs : List (String × List Bytes)) :
    Option HeaderEntries :=
  match hs with
  | [] => some []
  | (name, values) :: rest =>
      match parseHeaderName name with
      | none => none
      | some headerName =>
          match values.mapM headerValueFromBytes with
          | none => none
          | some parsedValues =>
              (translateHeaders rest).map
                (fun tail => parsedValues.map (fun v => (headerName, v)) ++ tail)

/-- rusoto's `SignedRequest` descriptor, restricted to the fields
`dispatch` reads: method token, scheme, hostname, canonical path,
canonical query string, header multimap, optional payload. -/
structure SignedRequest where
  method : String
  scheme : String
  hostname : String
  canonical_path : String
  canonical_query_string : String
  headers : List (String × List Bytes)
  payload : Option SignedRequestPayload

/-- The URI assembly of `dispatch` (`src/lib.rs:74-83`): format
`"{scheme}://{hostname}{canonical_path}"`, then append
`"?{canonical_query_string}"` when the canonical query string is
non-empty.  Both parts are concatenated verbatim. -/
def assembleUri (request : SignedRequest) : String :=
  let uri := request.scheme ++ "://" ++ request.hostname ++
    request.canonical_path
  if !request.canonical_query_string.isEmpty then
    uri ++ "?" ++ request.canonical_query_string
  else
    uri

/-- The `http::Request` built by `dispatch` (`src/lib.rs:85-92`): method,
URI, the `RusotoBody` body, and the header map that is written wholesale
over the builder's default map. -/
structure TransportRequest where
  method : Method
  uri : String
  headers : HeaderEntries
  body : RusotoBody
deriving Repr

/-- The ways the translation prefix of `dispatch` can abort before
calling the transport: the `assert!` on a supplied timeout
(`src/lib.rs:46`) or one of the `unimplemented!()` arms
(`src/lib.rs:54,61,66`). -/
inductive TranslateFailure where
  | assertTimeout (msg : String) : TranslateFailure
  | unsupported : TranslateFailure
deriving DecidableEq, Repr

/-- The request-building part of `dispatch` after the timeout assertion
(`src/lib.rs:48-92`): map the method token, translate the headers,
assemble the URI, build the request with `RusotoBody::from(payload)` as
body, then replace its header map with the translated one. -/
def buildTransportRequest (request : SignedRequest) :
    Except TranslateFailure TransportRequest :=
  match mapMethod request.method with
  | none => .error .unsupported
  | some method =>
      match translateHeaders request.headers with
      | none => .error .unsupported
      | some headers =>
          .ok { method := method
                uri := assembleUri request
                headers := headers
                body := RusotoBody.from request.payload }

/-- The synchronous prefix of `HttpClient::dispatch` (`src/lib.rs:45-92`):
first `assert!(timeout.is_none(), ...)` — a supplied timeout panics
before any translation work — then build the transport request. -/
def dispatchTranslate (request : SignedRequest) (timeout : Option Nat) :
    Except TranslateFailure TransportRequest :=
  if timeout.isSome then
    .error (.assertTimeout "timeout is not supported at this level")
  else
    buildTransportRequest request

/-! ## Response translation and inbound body stream
(`src/lib.rs:99-118` and `src/lib.rs:155-173`) -/

/-- An `std::io::Error` as observed by this adapter: its display
message.  Both `T::Error: Into<io::Error>` and
`<T::ResponseBody as Body>::Error: Into<io::Error>` conversions are
modelled as re-classification into this I/O kind, keeping the message. -/
structure IoError where
  msg : String
deriving DecidableEq, Repr

/-- `e.into()` for a transport or body error (`src/lib.rs:115,164`):
the error is re-classified as an `io::Error` carrying the same
message. -/
def intoIoError (msg : String) : IoError :=
  ⟨msg⟩

/-- `rusoto_core::request::HttpDispatchError`: a human-readable cause
string. -/
structure HttpDispatchError where
  msg : String
deriving DecidableEq, Repr

/-- `HttpDispatchError::new` (external constructor used at
`src/lib.rs:115`). -/
def HttpDispatchError.new (msg : String) : HttpDispatchError :=
  ⟨msg⟩

/-- The transport's `http::Response`, observed as the fields `dispatch`
reads: status, header map entries, and a pull-based chunk body
(`response.into_body().into_buf_stream()`), scripted like every
asynchronous source in this embedding. -/
structure TransportResponse where
  status : Nat
  headers : HeaderEntries
  body : List StreamSignal

/-- Whether a byte passes `HeaderValue::to_str` from the `http` crate
(external collaborator of `src/lib.rs:103`): visible ASCII or horizontal
tab. -/
def isVisibleAsciiByte (b : Nat) : Bool :=
  (32 ≤ b && b < 127) || b = 9

/-- `HeaderValue::to_str` (`src/lib.rs:103`): succeeds iff every byte is
visible ASCII (or tab), yielding those bytes as text; the source calls
`.unwrap()` on it, so failure is a panic, modelled as `none`. -/
def headerValueToStr (v : Bytes) : Option String :=
  if v.all isVisibleAsciiByte then
    some (String.mk (v.map Char.ofNat))
  else
    none

/-- The header mapping inside `dispatch`'s response closure
(`src/lib.rs:102-105`): for every `(h, v)` entry of the response header
map, in order, emit `(h.as_str(), v.to_str().unwrap().to_owned())` —
one pair per entry.  A value that fails `to_str` panics the closure
(`none`). -/
def translateResponseHeaders (hs : HeaderEntries) :
    Option (List (String × String)) :=
  hs.mapM (fun p => (headerValueToStr p.2).map (fun s => (p.1, s)))

/-- The outcome of one poll of the inbound `BodyStream`
(`Poll<Option<Vec<u8>>, io::Error>`): a ready owned chunk, end of data,
not ready, or an I/O-classified error. -/
inductive StreamPoll where
  | ready (b : Bytes) : StreamPoll
  | eof : StreamPoll
  | notReady : StreamPoll
  | err (e : IoError) : StreamPoll
deriving DecidableEq, Repr

/-- `BodyStream<T>` (`src/lib.rs:25-27`): a wrapper holding the
response's pull-based buffer body. -/
structure BodyStream where
  body : List StreamSignal
deriving DecidableEq, Repr

/-- `impl Stream for BodyStream` (`src/lib.rs:163-172`): one poll of the
inner `poll_buf`, forwarded one-for-one — a ready buffer is collected
into an owned `Vec<u8>` (copying its bytes), end and not-ready pass
through, and an inner error is converted `Into<io::Error>` by the
`map_err` and propagated by `?`. -/
def BodyStream.poll : BodyStream → (StreamPoll × BodyStream)
  | ⟨[]⟩ => (.eof, ⟨[]⟩)
  | ⟨.notReady :: rest⟩ => (.notReady, ⟨rest⟩)
  | ⟨.chunk b :: rest⟩ => (.ready b, ⟨rest⟩)
  | ⟨.srcError m :: rest⟩ => (.err (intoIoError m), ⟨rest⟩)

/-- The `rusoto_core` `HttpResponse` assembled by the response closure:
status, the flattened `(name, value)` pairs handed to `Headers::new`,
and the body re-exposed through `ByteStream::new(BodyStream { body })`. -/
structure HttpResponse where
  status : Nat
  headers : List (String × String)
  body : BodyStream

/-- The response closure of `dispatch` (`src/lib.rs:100-114`): copy the
status verbatim, translate the headers (panicking on an undecodable
value), and wrap the body.  Returns `none` on the panic path. -/
def translateResponse (response : TransportResponse) : Option HttpResponse :=
  (translateResponseHeaders response.headers).map
    (fun headers =>
      { status := response.status
        headers := headers
        body := ⟨response.body⟩ })

/-- The awaited tail of `dispatch` (`src/lib.rs:99-115`): the transport
future's single result is either translated by the `and_then` closure
(`none` when that closure panics) or, on a transport failure `e`,
wrapped once by the `map_err` into
`HttpDispatchError::new(format!("DispatchError: {}", e.into()))`.
No branch re-invokes the transport. -/
def dispatchAwait (result : Except IoError TransportResponse) :
    Option (Except HttpDispatchError HttpResponse) :=
  match result with
  | .error e => some (.error (HttpDispatchError.new ("DispatchError: " ++ e.msg)))
  | .ok response => (translateResponse response).map .ok

/-! ## Helper lemmas -/

theorem runPolls_none (n : Nat) :
    RusotoBody.runPolls ⟨none⟩ n = List.replicate n .eof := by
  induction n with
  | zero => rfl
  | succ n ih =>
      simp [RusotoBody.runPolls, RusotoBody.poll_buf, ih, List.replicate]

theorem runPolls_buffer_nil (n : Nat) :
    RusotoBody.runPolls ⟨some (.Buffer [])⟩ n = List.replicate n .eof := by
  induction n with
  | zero => rfl
  | succ n ih =>
      simp [RusotoBody.runPolls, RusotoBody.poll_buf, ih, List.replicate]

theorem poll_buf_stream_cons (sig : StreamSignal) (rest : List StreamSignal) :
    RusotoBody.poll_buf ⟨some (.Stream (sig :: rest))⟩ =
      (signalOutcome sig, ⟨some (.Stream rest)⟩) := by
  cases sig <;> rfl

theorem runPolls_stream (n : Nat) (script : List StreamSignal) :
    RusotoBody.runPolls ⟨some (.Stream script)⟩ n =
      (script.take n).map signalOutcome ++
        List.replicate (n - script.length) .eof := by
  induction n generalizing script with
  | zero => simp [RusotoBody.runPolls]
  | succ n ih =>
      cases script with
      | nil =>
          simp [RusotoBody.runPolls, RusotoBody.poll_buf, ih, List.replicate]
      | cons sig rest =>
          simp [RusotoBody.runPolls, poll_buf_stream_cons, ih,
            Nat.succ_sub_succ]

/-! ## Claim theorems: outbound body adapter -/

/-- C1: a Buffered payload holding a non-empty byte block yields, on the
first pull, exactly one chunk equal to the original buffer contents
(taking the whole buffer), and every one of the `n` subsequent pulls
yields end-of-data; an Absent payload yields end-of-data on every one of
its `k` pulls. -/
theorem buffered_and_absent_payload_pulls (b : Bytes) (hb : b ≠ [])
    (n k : Nat) :
    RusotoBody.runPolls ⟨some (.Buffer b)⟩ (n + 1) =
      .ready b :: List.replicate n .eof ∧
    RusotoBody.runPolls ⟨none⟩ k = List.replicate k .eof := by
  refine ⟨?_, runPolls_none k⟩
  simp [RusotoBody.runPolls, RusotoBody.poll_buf, hb, runPolls_buffer_nil]

/-- Witness for C1 at the buffer `[1, 2, 3]` with two trailing pulls and
two pulls of the absent payload. -/
theorem buffered_and_absent_payload_pulls_witness :
    RusotoBody.runPolls ⟨some (.Buffer [1, 2, 3])⟩ 3 =
      [.ready [1, 2, 3], .eof, .eof] ∧
    RusotoBody.runPolls ⟨none⟩ 2 = [.eof, .eof] := by
  have h := buffered_and_absent_payload_pulls [1, 2, 3] (by decide) 2 2
  simpa using h

/-- C7: for a Streaming payload scripted as `w` not-ready signals, then
the chunks of `chunks`, then end, the adapter forwards the source
one-for-one: `w + chunks.length + n` pulls observe exactly `w` not-ready
outcomes, then the chunks as ready owned buffers in order, then `n`
end-of-data outcomes; and each single pull forwards the head signal of
the source unchanged. -/
theorem streaming_payload_forwards (w n : Nat) (chunks : List Bytes) :
    RusotoBody.runPolls
        ⟨some (.Stream (List.replicate w .notReady ++ chunks.map .chunk))⟩
        (w + chunks.length + n) =
      List.replicate w .notReady ++ chunks.map .ready ++
        List.replicate n .eof ∧
    ∀ (sig : StreamSignal) (rest : List StreamSignal),
      RusotoBody.poll_buf ⟨some (.Stream (sig :: rest))⟩ =
        (signalOutcome sig, ⟨some (.Stream rest)⟩) := by
  refine ⟨?_, poll_buf_stream_cons⟩
  rw [runPolls_stream]
  have hlen : (List.replicate w StreamSignal.notReady ++
      chunks.map StreamSignal.chunk).length = w + chunks.length := by
    simp
  rw [List.take_of_length_le (by omega)]
  simp [hlen, List.map_map, signalOutcome, Function.comp]

/-- C8: once a pull of the outbound body adapter has yielded end-of-data
from state `s`, every one of the `n` subsequent pulls from the successor
state also yields end-of-data — the payload never yields data again. -/
theorem payload_no_resurrection (s s2 : RusotoBody)
    (h : s.poll_buf = (.eof, s2)) (n : Nat) :
    RusotoBody.runPolls s2 n = List.replicate n .eof := by
  obtain ⟨inner⟩ := s
  match inner with
  | none =>
      simp [RusotoBody.poll_buf] at h
      rw [← h]
      exact runPolls_none n
  | some (.Buffer buf) =>
      by_cases hb : buf = []
      · subst hb
        simp [RusotoBody.poll_buf] at h
        rw [← h]
        exact runPolls_buffer_nil n
      · simp [RusotoBody.poll_buf, hb] at h
  | some (.Stream script) =>
      cases script with
      | nil =>
          simp [RusotoBody.poll_buf] at h
          rw [← h]
          simpa using runPolls_stream n []
      | cons sig rest =>
          rw [poll_buf_stream_cons] at h
          cases sig <;> simp [signalOutcome] at h

/-- Witness for C8: an empty buffered payload is observed exhausted by a
pull that yields end-of-data; the three pulls that follow all yield
end-of-data as well. -/
theorem payload_no_resurrection_witness :
    RusotoBody.runPolls ⟨some (.Buffer [])⟩ 3 =
      List.replicate 3 .eof :=
  payload_no_resurrection ⟨some (.Buffer [])⟩ ⟨some (.Buffer [])⟩
    (by decide) 3

/-- C10: a Buffered payload with an empty buffer yields end-of-data on
its very first pull (no error, no not-ready), and over any number of
pulls it is observationally identical to an Absent payload. -/
theorem empty_buffer_like_absent (n : Nat) :
    (RusotoBody.poll_buf ⟨some (.Buffer [])⟩).1 = .eof ∧
    RusotoBody.runPolls ⟨some (.Buffer [])⟩ n =
      RusotoBody.runPolls ⟨none⟩ n := by
  refine ⟨by decide, ?_⟩
  rw [runPolls_buffer_nil, runPolls_none]

/-! ## Claim theorems: request translator -/

theorem mapMethod_token_eq {s : String} {m : Method}
    (h : mapMethod s = some m) : m.token = s := by
  unfold mapMethod at h
  split at h <;>
    first
      | exact Option.noConfusion h
      | (injection h with h; subst h; rfl)

theorem buildTransportRequest_ok_iff (req : SignedRequest)
    (tr : TransportRequest) :
    buildTransportRequest req = .ok tr ↔
      ∃ m hs, mapMethod req.method = some m ∧
        translateHeaders req.headers = some hs ∧
        tr = { method := m, uri := assembleUri req, headers := hs,
               body := RusotoBody.from req.payload } := by
  unfold buildTransportRequest
  constructor
  · intro h
    split at h
    · exact absurd h (by simp)
    · split at h
      · exact absurd h (by simp)
      · exact ⟨_, _, by assumption, by assumption, by
          simpa using h.symm⟩
  · rintro ⟨m, hs, hm, hh, rfl⟩
    rw [hm, hh]

theorem buildTransportRequest_error_unsupported (req : SignedRequest)
    (f : TranslateFailure) (h : buildTransportRequest req = .error f) :
    f = .unsupported := by
  unfold buildTransportRequest at h
  split at h
  · simpa using h.symm
  · split at h
    · simpa using h.symm
    · simp at h

/-- C3: the five tokens GET, HEAD, POST, PUT and DELETE map to the
transport methods rendering those very tokens — a successfully built
transport request's method renders exactly the descriptor's token — and
any other token fails the method match, so the translator produces an
unsupported-failure instead of a request. -/
theorem method_mapping (s : String)
    (hs : s ∉ ["GET", "HEAD", "POST", "PUT", "DELETE"]) :
    (∀ m : Method, mapMethod m.token = some m) ∧
    (∀ (req : SignedRequest) (tr : TransportRequest),
      buildTransportRequest req = .ok tr → tr.method.token = req.method) ∧
    mapMethod s = none ∧
    (∀ req : SignedRequest, req.method = s →
      buildTransportRequest req = .error .unsupported) := by
  have hnone : mapMethod s = none := by
    unfold mapMethod
    split <;> simp_all
  refine ⟨fun m => by cases m <;> rfl, ?_, hnone, ?_⟩
  · intro req tr h
    obtain ⟨m, hs2, hm, -, rfl⟩ := (buildTransportRequest_ok_iff req tr).mp h
    exact mapMethod_token_eq hm
  · intro req hreq
    unfold buildTransportRequest
    rw [hreq, hnone]

/-- Witness for C3 at the unsupported token PATCH and the supported
token GET. -/
theorem method_mapping_witness :
    mapMethod "PATCH" = none ∧ mapMethod "GET" = some Method.GET := by
  have h := method_mapping "PATCH" (by decide)
  exact ⟨h.2.2.1, h.1 Method.GET⟩

/-- C4: every successfully built transport request's URI is the verbatim
concatenation scheme ++ "://" ++ hostname ++ canonical path, with
"?" ++ canonical query string appended exactly when the canonical query
string is non-empty. -/
theorem uri_assembly (req : SignedRequest) (tr : TransportRequest)
    (h : buildTransportRequest req = .ok tr) :
    tr.uri =
      if req.canonical_query_string = "" then
        req.scheme ++ "://" ++ req.hostname ++ req.canonical_path
      else
        req.scheme ++ "://" ++ req.hostname ++ req.canonical_path ++
          "?" ++ req.canonical_query_string := by
  obtain ⟨m, hs, -, -, rfl⟩ := (buildTransportRequest_ok_iff req tr).mp h
  show assembleUri req = _
  unfold assembleUri
  by_cases hq : req.canonical_query_string = "" <;>
    simp [hq, String.isEmpty_iff]

/-- Witness for C4 at the spec's example descriptor: scheme https, host
example.com, path /a/b, query x=1. -/
theorem uri_assembly_witness :
    ({ method := Method.GET, uri := "https://example.com/a/b?x=1",
       headers := [], body := ⟨none⟩ } : TransportRequest).uri =
      if ("x=1" : String) = "" then
        "https" ++ "://" ++ "example.com" ++ "/a/b"
      else
        "https" ++ "://" ++ "example.com" ++ "/a/b" ++ "?" ++ "x=1" :=
  uri_assembly ⟨"GET", "https", "example.com", "/a/b", "x=1", [], none⟩
    ⟨Method.GET, "https://example.com/a/b?x=1", [], ⟨none⟩⟩ (by rfl)

/-- C5: a present timeout makes `dispatch` hit the fatal assertion
deterministically, for every descriptor and duration, before any
translation outcome can be produced; with an absent timeout the result
is exactly the translation's (so the assertion path is unreachable: no
absent-timeout run produces the assertion failure). -/
theorem timeout_assertion (req : SignedRequest) (d : Nat) :
    dispatchTranslate req (some d) =
      .error (.assertTimeout "timeout is not supported at this level") ∧
    dispatchTranslate req none = buildTransportRequest req ∧
    (∀ msg : String, dispatchTranslate req none ≠
      .error (.assertTimeout msg)) := by
  refine ⟨rfl, rfl, fun msg hcontra => ?_⟩
  have := buildTransportRequest_error_unsupported req _ hcontra
  simp at this

theorem parseHeaderName_of_isSome {s : String}
    (h : parseHeaderName s ≠ none) : parseHeaderName s = some s.toLower := by
  unfold parseHeaderName at *
  split at h <;> simp_all

theorem headerValueFromBytes_of_isSome {v : Bytes}
    (h : headerValueFromBytes v ≠ none) : headerValueFromBytes v = some v := by
  unfold headerValueFromBytes at *
  split at h <;> simp_all

theorem mapM_headerValueFromBytes (l : List Bytes)
    (h : ∀ v ∈ l, headerValueFromBytes v ≠ none) :
    l.mapM headerValueFromBytes = some l := by
  induction l with
  | nil => rfl
  | cons v rest ih =>
      rw [List.mapM_cons, headerValueFromBytes_of_isSome (h v (by simp)),
        ih (fun u hu => h u (by simp [hu]))]
      rfl

/-- C6: for a descriptor header multimap whose names and raw values all
parse into the transport's header types, the translated header map is
exactly the in-order flattening of the multimap — every value appended
under its (parsed, lowercased) name, so duplicate values and their
insertion order are preserved. -/
theorem header_translation (hs : List (String × List Bytes))
    (h : ∀ p ∈ hs, parseHeaderName p.1 ≠ none ∧
      ∀ v ∈ p.2, headerValueFromBytes v ≠ none) :
    translateHeaders hs =
      some (hs.flatMap (fun p => p.2.map (fun v => (p.1.toLower, v)))) := by
  induction hs with
  | nil => rfl
  | cons p rest ih =>
      obtain ⟨hname, hvals⟩ := h p (by simp)
      obtain ⟨name, values⟩ := p
      rw [List.flatMap_cons, translateHeaders,
        parseHeaderName_of_isSome hname,
        mapM_headerValueFromBytes values hvals,
        ih (fun q hq => h q (by simp [hq]))]
      rfl

/-- Witness for C6 at the spec's example: header X-Foo with the two raw
values "a" and "b" translates to both values appended in order under the
parsed name x-foo. -/
theorem header_translation_witness :
    translateHeaders [("X-Foo", [[97], [98]])] =
      some [("X-Foo".toLower, [97]), ("X-Foo".toLower, [98])] := by
  have h := header_translation [("X-Foo", [[97], [98]])]
    (by
      intro p hp
      simp only [List.mem_singleton] at hp
      subst hp
      refine ⟨by decide, by decide⟩)
  simpa using h

/-! ## Claim theorems: response translator and inbound body stream -/

theorem headerValueToStr_of_isSome {v : Bytes}
    (h : headerValueToStr v ≠ none) :
    headerValueToStr v = some (String.mk (v.map Char.ofNat)) := by
  unfold headerValueToStr at *
  split at h <;> simp_all

/-- C2: for a transport response header map whose values all decode as
header text, the translation emits exactly one (name, decoded value)
pair per entry of the map — repeated names included — preserving the
multiplicity and order of the entries. -/
theorem response_header_translation (hs : HeaderEntries)
    (h : ∀ p ∈ hs, headerValueToStr p.2 ≠ none) :
    translateResponseHeaders hs =
      some (hs.map (fun p => (p.1, String.mk (p.2.map Char.ofNat)))) := by
  unfold translateResponseHeaders
  induction hs with
  | nil => rfl
  | cons p rest ih =>
      rw [List.map_cons, List.mapM_cons,
        headerValueToStr_of_isSome (h p (by simp)),
        ih (fun q hq => h q (by simp [hq]))]
      rfl

/-- Witness for C2 at the spec's example: a response with X-Foo carrying
the byte values of "a" and "b" in two entries translates back to the two
pairs (X-Foo, a) and (X-Foo, b), in order. -/
theorem response_header_translation_witness :
    translateResponseHeaders [("X-Foo", [97]), ("X-Foo", [98])] =
      some [("X-Foo", "a"), ("X-Foo", "b")] := by
  have h := response_header_translation [("X-Foo", [97]), ("X-Foo", [98])]
    (by decide)
  rw [h]
  rfl

/-- C9: a transport failure `e` is wrapped into the single dispatch
error "DispatchError: " ++ the underlying message — no other outcome is
possible on that branch, so it is surfaced once and never retried — and
a body-stream failure is re-classified into the I/O error kind with its
message intact and forwarded to the stream's consumer at the pull that
observes it. -/
theorem transport_error_wrapping (e : IoError) (m : String)
    (rest : List StreamSignal) :
    dispatchAwait (.error e) =
      some (.error (HttpDispatchError.new ("DispatchError: " ++ e.msg))) ∧
    BodyStream.poll ⟨.srcError m :: rest⟩ =
      (.err (intoIoError m), ⟨rest⟩) :=
  ⟨rfl, rfl⟩

end TowerRusoto
